import Mathlib

/-!
Verification development for the clash-ip-checker proxy evaluation pipeline.

The definitions below are a shallow embedding of the repository sources:
`src/core/ip_checker.py` (the quality prober), `src/clash_automator.py`
(the evaluation orchestrator and config rewriter) and, where the claims
need them, the helper semantics of the Python primitives those files use
(`str.strip`, `float`, dict assignment and lookup, substring tests).
External effects (HTTP responses, browser navigation, the text extracted
from the rendered page) are passed in as explicit environment values; all
control flow and data manipulation of the source is transliterated.
-/

/-! ## Python string primitives -/

/-- Models the default whitespace class of Python `str.strip` for the
character ranges exercised here (ASCII whitespace). -/
def isPySpace (c : Char) : Bool := c.isWhitespace

/-- Models Python `str.strip()` on a character list: drop whitespace from
both ends, keep the interior untouched. -/
def pyStripList (l : List Char) : List Char :=
  ((l.dropWhile isPySpace).reverse.dropWhile isPySpace).reverse

/-- Models Python `str.strip()`. -/
def pyStrip (s : String) : String := String.mk (pyStripList s.data)

/-- Models the matching of a needle at the head of a haystack, used for the
Python substring test. -/
def listStartsWith : List Char → List Char → Bool
  | _, [] => true
  | [], _ :: _ => false
  | h :: t, n :: ns => h = n && listStartsWith t ns

/-- Models `needle in haystack` on Python strings: the needle occurs as a
contiguous run of the haystack. -/
def listOccurs (needle : List Char) : List Char → Bool
  | [] => needle.isEmpty
  | h :: t => listStartsWith (h :: t) needle || listOccurs needle t

/-- Models Python `sub in s` for strings. -/
def strContains (s sub : String) : Bool := listOccurs sub.data s.data

/-- Fueled worker for `strReplace`; the fuel starts at the haystack length,
which bounds the number of characters consumed per step so the recursion is
structural. -/
def replaceListAux (pat rep : List Char) : Nat → List Char → List Char
  | 0, l => l
  | _ + 1, [] => []
  | fuel + 1, h :: t =>
    if pat.isEmpty = false && listStartsWith (h :: t) pat then
      rep ++ replaceListAux pat rep fuel ((h :: t).drop pat.length)
    else h :: replaceListAux pat rep fuel t

/-- Models Python `s.replace(pat, rep)` for a non-empty pattern: scan left
to right and substitute each non-overlapping occurrence.  The program only
ever calls it with the patterns `"%"` and `"bot"`. -/
def strReplace (s pat rep : String) : String :=
  String.mk (replaceListAux pat.data rep.data s.data.length s.data)

/-- Models Python `s.endswith(suf)`. -/
def strEndsWith (s suf : String) : Bool := listStartsWith s.data.reverse suf.data.reverse

/-- Splits a character list at every dot, keeping empty parts, exactly like
Python `s.split(".")` on the list of characters. -/
def splitOnDot : List Char → List (List Char)
  | [] => [[]]
  | '.' :: t => [] :: splitOnDot t
  | c :: t =>
    match splitOnDot t with
    | [] => [[c]]
    | p :: ps => (c :: p) :: ps

/-- Numeric value of a run of decimal digits. -/
def digitsToNat (l : List Char) : Nat := l.foldl (fun a c => a * 10 + (c.toNat - 48)) 0

/-- Powers of ten, kept as a first-order recursion so concrete instances
reduce inside the kernel. -/
def pow10 : Nat → Nat
  | 0 => 1
  | n + 1 => 10 * pow10 n

/-- Models CPython `float()` restricted to finite ASCII decimal literals
(optional surrounding whitespace, optional sign, digits with an optional
decimal point, optional decimal exponent; no infinities, NaN payloads or
digit-group underscores, which never arise from the percentage strings this
program feeds to it).  The value is kept exact as a scaled integer
`(num, scale)` denoting `num / 10 ^ scale`; the IEEE-754 rounding of
CPython floats is not modelled, which can only differ on inputs within
one ulp of a banding threshold, a shape the percentage extraction never
produces.  Returns `none` exactly when CPython would raise `ValueError`
on such input. -/
def pyFloat? (s : String) : Option (Int × Nat) :=
  let cs := pyStripList s.data
  let negAndRest : Bool × List Char :=
    match cs with
    | '+' :: t => (false, t)
    | '-' :: t => (true, t)
    | _ => (false, cs)
  let neg := negAndRest.1
  let cs1 := negAndRest.2
  let intPart := cs1.takeWhile Char.isDigit
  let rest1 := cs1.dropWhile Char.isDigit
  let fracAndRest : List Char × List Char :=
    match rest1 with
    | '.' :: t => (t.takeWhile Char.isDigit, t.dropWhile Char.isDigit)
    | _ => ([], rest1)
  let fracPart := fracAndRest.1
  let rest2 := fracAndRest.2
  if intPart.isEmpty && fracPart.isEmpty then none
  else
    let mant0 : Nat := digitsToNat intPart * pow10 fracPart.length + digitsToNat fracPart
    let mant : Int := if neg then -(mant0 : Int) else (mant0 : Int)
    let scale : Nat := fracPart.length
    match rest2 with
    | [] => some (mant, scale)
    | e :: t =>
      if e = 'e' || e = 'E' then
        let expNegAndRest : Bool × List Char :=
          match t with
          | '+' :: t2 => (false, t2)
          | '-' :: t2 => (true, t2)
          | _ => (false, t)
        let eneg := expNegAndRest.1
        let t1 := expNegAndRest.2
        let edigits := t1.takeWhile Char.isDigit
        let erest := t1.dropWhile Char.isDigit
        if edigits.isEmpty || !erest.isEmpty then none
        else
          let ev := digitsToNat edigits
          some (if eneg then (mant, scale + ev) else (mant * (pow10 ev : Int), scale))
      else none

/-- The modelled float value `v.1 / 10 ^ v.2` is at most the integer
`bound`, stated by cross-multiplying with the positive denominator. -/
def pyLe (v : Int × Nat) (bound : Int) : Bool :=
  decide (v.1 ≤ bound * (pow10 v.2 : Int))

/-! ## Python dict operations

Dictionaries are modelled as association lists in insertion order: lookup
returns the value of the (unique) binding of a key, assignment overwrites an
existing binding in place or appends a fresh one, exactly like CPython
dicts preserve insertion order. -/

/-- Models Python dict lookup `m[k]` / `m.get(k)`. -/
def dlookup {β : Type} : List (String × β) → String → Option β
  | [], _ => none
  | (k, v) :: rest, x => if x = k then some v else dlookup rest x

/-- Models Python dict assignment `m[k] = v`: overwrite the value of an
existing binding in place, or append a fresh binding at the end. -/
def dictInsert {β : Type} : List (String × β) → String → β → List (String × β)
  | [], k, v => [(k, v)]
  | (k0, v0) :: rest, k, v =>
    if k0 = k then (k0, v) :: rest else (k0, v0) :: dictInsert rest k v

/-! ## IPChecker (src/core/ip_checker.py) -/

/-- Result dictionary produced by `IPChecker.check`, in the field order of
the literal at ip_checker.py lines 170-180.  `error` is `none` when the
Python value is `None`. -/
structure EvalResult where
  pure_emoji : String
  bot_emoji : String
  ip_attr : String
  ip_src : String
  pure_score : String
  bot_score : String
  full_string : String
  ip : String
  error : Option String
deriving DecidableEq, Repr

/-- Models `IPChecker.get_emoji` (ip_checker.py lines 51-84): strip all
percent signs, convert with `float`, then band through the fixed
thresholds; any conversion failure yields the question-mark sentinel. -/
def get_emoji (percentage_str : String) : String :=
  match pyFloat? (strReplace percentage_str "%" "") with
  | none => "❓"
  | some val =>
    if pyLe val 10 then "⚪"
    else if pyLe val 30 then "🟢"
    else if pyLe val 50 then "🟡"
    else if pyLe val 70 then "🟠"
    else if pyLe val 90 then "🔴"
    else "⚫"

/-- Language of the regex `^\d{1,3}(\.\d{1,3}){3}\d{1,3}$` used at
ip_checker.py line 105.  The pattern is four literal-dot separated parts
where the first three parts are runs of 1 to 3 digits and, because of the
trailing extra `\d{1,3}` after the repeated group, the final part is the
concatenation of the last group match (1-3 digits) with the final atom
(1-3 digits): a run of 2 to 6 digits.  Every string of the language has
exactly three dots (no other pattern atom matches a dot), so splitting on
dots is an exact decision procedure for it. -/
def simpleIpRegexAccepts (s : String) : Bool :=
  match splitOnDot s.data with
  | [a, b, c, d] =>
    a.all Char.isDigit && b.all Char.isDigit &&
    c.all Char.isDigit && d.all Char.isDigit &&
    decide (1 ≤ a.length) && decide (a.length ≤ 3) &&
    decide (1 ≤ b.length) && decide (b.length ≤ 3) &&
    decide (1 ≤ c.length) && decide (c.length ≤ 3) &&
    decide (2 ≤ d.length) && decide (d.length ≤ 6)
  | _ => false

/-- Modelled from the spec wording for claim comparison: a syntactically
valid IPv4 dotted quad is four groups of 1 to 3 decimal digits separated
by dots. -/
def isDottedQuad (s : String) : Bool :=
  match splitOnDot s.data with
  | [a, b, c, d] =>
    a.all Char.isDigit && b.all Char.isDigit &&
    c.all Char.isDigit && d.all Char.isDigit &&
    decide (1 ≤ a.length) && decide (a.length ≤ 3) &&
    decide (1 ≤ b.length) && decide (b.length ≤ 3) &&
    decide (1 ≤ c.length) && decide (c.length ≤ 3) &&
    decide (1 ≤ d.length) && decide (d.length ≤ 3)
  | _ => false

/-- Outcome of one lightweight lookup endpoint as observed by
`IPChecker.get_simple_ip`: `none` models a request that raised (timeout or
network error), `some (status, body)` a completed response. -/
def try_simple_url (resp : Option (Nat × String)) : Option String :=
  match resp with
  | none => none
  | some (status, body) =>
    if status = 200 then
      let ip := pyStrip body
      if simpleIpRegexAccepts ip then some ip else none
    else none

/-- Models `IPChecker.get_simple_ip` (ip_checker.py lines 86-109): try the
two endpoints in order, return the first stripped body that passes the
regex test, else `None`.  A non-200 status, a raised request or a body
failing the regex all fall through to the next endpoint. -/
def get_simple_ip (r1 r2 : Option (Nat × String)) : Option String :=
  match try_simple_url r1 with
  | some ip => some ip
  | none =>
    match try_simple_url r2 with
    | some ip => some ip
    | none => none

/-- Extraction outcomes of the regex searches `IPChecker.check` runs over
the rendered page text (ip_checker.py lines 194-229).  Each field is the
raw matched text handed to the subsequent string processing: `pureMatch`
is group 1 of the IPPure regex, `botMatch` is group 0 of the bot regex,
`attrMatch` and `srcMatch` are group 1 of the attribute and source
regexes (either of the two fallback patterns), `ipMatch` is the first
dotted-quad-shaped run in the text. `none` models a failed search. -/
structure PageText where
  pureMatch : Option String
  botMatch : Option String
  attrMatch : Option String
  srcMatch : Option String
  ipMatch : Option String
deriving DecidableEq, Repr

/-- Decidable equality for `Except`, used to evaluate concrete probe
environments. -/
instance {ε α : Type} [DecidableEq ε] [DecidableEq α] : DecidableEq (Except ε α)
  | .ok a, .ok b =>
    if h : a = b then .isTrue (by rw [h]) else .isFalse (fun hh => h (Except.ok.inj hh))
  | .ok _, .error _ => .isFalse (fun h => Except.noConfusion h)
  | .error _, .ok _ => .isFalse (fun h => Except.noConfusion h)
  | .error e, .error f =>
    if h : e = f then .isTrue (by rw [h]) else .isFalse (fun hh => h (Except.error.inj hh))

/-- External environment of one `IPChecker.check` invocation: the quick IP
lookup outcome and the navigation-plus-text-extraction outcome.  The
`Except` error carries the exception text of any navigation or extraction
failure inside the `try` block (all such failure points sit before any
result field is assigned). -/
structure CheckEnv where
  quickIp : Option String
  nav : Except String PageText
deriving DecidableEq, Repr

/-- Process-lifetime cache of `IPChecker`, keyed by resolved IP address. -/
abbrev Cache := List (String × EvalResult)

/-- Models `re.sub(r"IP$", "", raw)`: the anchored pattern has at most one
match, the trailing `IP`, which is deleted. -/
def removeIPSuffixList (l : List Char) : List Char :=
  if l.reverse.take 2 = ['P', 'I'] then (l.reverse.drop 2).reverse else l

/-- String form of `removeIPSuffixList`. -/
def removeIPSuffix (s : String) : String := String.mk (removeIPSuffixList s.data)

/-- Purity-score update of `IPChecker.check` (ip_checker.py lines
195-197): the matched percentage text, or the default sentinel. -/
def checkPureScore (page : PageText) : String :=
  match page.pureMatch with | some s => s | none => "❓"

/-- Purity-emoji update (ip_checker.py line 198): banded from the matched
percentage, or the default sentinel when the search failed. -/
def checkPureEmoji (page : PageText) : String :=
  match page.pureMatch with | some s => get_emoji s | none => "❓"

/-- Bot-score post-processing (ip_checker.py lines 201-207): strip the
`bot` pattern text from group 0 of the match, trim whitespace, ensure a
trailing percent sign. -/
def checkBotVal (page : PageText) : Option String :=
  match page.botMatch with
  | some g0 =>
    let v := pyStrip (strReplace g0 "bot" "")
    some (if strEndsWith v "%" then v else v ++ "%")
  | none => none

/-- IP-attribute post-processing (ip_checker.py lines 210-215): strip the
matched line, delete a trailing `IP`; sentinel when no match. -/
def checkIpAttr (page : PageText) : String :=
  match page.attrMatch with
  | some raw => removeIPSuffix (pyStrip raw)
  | none => "❓"

/-- IP-source post-processing (ip_checker.py lines 218-223), identical in
shape to the attribute case. -/
def checkIpSrc (page : PageText) : String :=
  match page.srcMatch with
  | some raw => removeIPSuffix (pyStrip raw)
  | none => "❓"

/-- Summary-info construction (ip_checker.py lines 231-238): blank out the
sentinels, join with a bar, strip, and substitute the unknown placeholder
for a bare bar or an empty string. -/
def checkInfo (ip_attr ip_src : String) : String :=
  let attrV := if ip_attr ≠ "❓" then ip_attr else ""
  let srcV := if ip_src ≠ "❓" then ip_src else ""
  let info0 := pyStrip (attrV ++ "|" ++ srcV)
  let info1 := if info0 = "|" then "未知" else info0
  if info1 = "" then "未知" else info1

/-- Success-path body of `IPChecker.check` (ip_checker.py lines 182-244):
given the initial `ip` field value and the extraction outcomes, build the
result dictionary exactly as the source does. -/
def buildCheckResult (initIp : String) (page : PageText) : EvalResult :=
  let pure_emoji := checkPureEmoji page
  let bot_score := match checkBotVal page with | some v => v | none => "❓"
  let bot_emoji := match checkBotVal page with | some v => get_emoji v | none => "❓"
  let ip := if initIp = "❓" then
      (match page.ipMatch with | some s => s | none => "❓")
    else initIp
  let full_string :=
    "【" ++ pure_emoji ++ bot_emoji ++ " " ++ checkInfo (checkIpAttr page) (checkIpSrc page) ++ "】"
  ⟨pure_emoji, bot_emoji, checkIpAttr page, checkIpSrc page, checkPureScore page,
   bot_score, full_string, ip, none⟩

/-- Cache update step of `IPChecker.check` (ip_checker.py lines 242-244):
the result is written back keyed by its `ip` field only when both the
address and the purity score are resolved. -/
def cacheAfter (cache : Cache) (r : EvalResult) : Cache :=
  if r.ip ≠ "❓" ∧ r.pure_score ≠ "❓" then dictInsert cache r.ip r else cache

/-- Fixed result of the exception handler of `IPChecker.check`
(ip_checker.py lines 246-248): the defaults of the result dictionary with
the exception text in `error` and the fixed error summary. -/
def checkErrorResult (initIp : String) (e : String) : EvalResult :=
  ⟨"❓", "❓", "❓", "❓", "❓", "❓", "【❌ 错误】", initIp, some e⟩

/-- Initial `ip` field value (ip_checker.py line 178): the quick lookup
result when truthy, the sentinel otherwise.  The truthiness test
`if current_ip` of the source is the Python non-empty string test. -/
def checkInitIp (q : Option String) : String :=
  match q with
  | some ip => if ip = "" then "❓" else ip
  | none => "❓"

/-- Models `IPChecker.check` (ip_checker.py lines 111-256) as a function
of the cache state and the external environment.  Returns the result, the
cache after the call, and whether the browser navigation was performed
(`False` exactly on the cache-hit early return at lines 144-146). -/
def check (cache : Cache) (env : CheckEnv) : EvalResult × Cache × Bool :=
  let cachedHit : Option EvalResult :=
    match env.quickIp with
    | some ip => if ip = "" then none else dlookup cache ip
    | none => none
  match cachedHit with
  | some r => (r, cache, false)
  | none =>
    match env.nav with
    | .error e => (checkErrorResult (checkInitIp env.quickIp) e, cache, true)
    | .ok page =>
      let r := buildCheckResult (checkInitIp env.quickIp) page
      (r, cacheAfter cache r, true)

/-! ## Evaluation orchestrator (src/clash_automator.py) -/

/-- Method names defined by the `IPChecker` class body (ip_checker.py lines
8-256); Python attribute lookup on an `IPChecker` instance succeeds exactly
for these names. -/
def ipCheckerMethods : List String :=
  ["__init__", "start", "stop", "get_emoji", "get_simple_ip", "check"]

/-- Result dictionary as consumed by the orchestrator: the fields
`test_single_proxy` and `main` read from the dictionaries they handle.
`error` is the value of `res.get("error")`, `none` both for an explicit
`None` and for an absent key. -/
structure AutoResult where
  full_string : String
  ip : String
  pure_score : String
  bot_score : String
  error : Option String
deriving DecidableEq, Repr

/-- Dictionary literal returned by `test_single_proxy` when the selector
switch fails (clash_automator.py line 36). -/
def switchErrorDict : AutoResult := ⟨"【❌ Switch Error】", "Error", "?", "?", none⟩

/-- Dictionary literal substituted when the retry loop ends with no result
at all, that is when every attempt raised (clash_automator.py line 61). -/
def errorFallbackDict : AutoResult := ⟨"【❌ Error】", "Error", "?", "?", none⟩

/-- View of a checker result dictionary through the keys the orchestrator
reads. -/
def EvalResult.toDict (r : EvalResult) : AutoResult :=
  ⟨r.full_string, r.ip, r.pure_score, r.bot_score, r.error⟩

/-- Models the browser-mode retry loop of `test_single_proxy`
(clash_automator.py lines 49-58): iterate over the attempt outcomes (an
exception or a returned result each), keep the last returned result in
`res`, break early on a satisfactory one.  Returns the final `res`
together with the number of attempts consumed. -/
def checkRetryLoop : List (Except String EvalResult) → Option EvalResult → Option EvalResult × Nat
  | [], res => (res, 0)
  | a :: rest, res =>
    match a with
    | .ok r =>
      if r.error = none ∧ r.pure_score ≠ "❓" then (some r, 1)
      else ((checkRetryLoop rest (some r)).1, (checkRetryLoop rest (some r)).2 + 1)
    | .error _ => ((checkRetryLoop rest res).1, (checkRetryLoop rest res).2 + 1)

/-- Models `test_single_proxy` (clash_automator.py lines 24-75) given the
switch outcome, the fast-mode flag and the outcomes of the two prober
attempts of the retry loop.  The outer `Except` carries an exception that
escapes the function: the only such exception is the `AttributeError` of
the undefined `checker.check_fast` attribute, raised before any probe when
fast mode is on.  The second component counts prober invocations made by
the retry loop. -/
def test_single_proxy (switched fastMode : Bool) (a1 a2 : Except String EvalResult) :
    Except String AutoResult × Nat :=
  if switched = false then (.ok switchErrorDict, 0)
  else if fastMode then
    if ipCheckerMethods.contains "check_fast" then (.ok errorFallbackDict, 0)
    else (.error "AttributeError: IPChecker object has no attribute check_fast", 0)
  else
    match checkRetryLoop [a1, a2] none with
    | (some r, n) => (.ok r.toDict, n)
    | (none, n) => (.ok errorFallbackDict, n)

/-- Models the skip filter of `main` (clash_automator.py lines 160-168): an
entry is skipped when its name contains any configured skip keyword as a
substring. -/
def shouldSkip (kws : List String) (name : String) : Bool :=
  kws.any (fun kw => strContains name kw)

/-- Proxy entry of the loaded configuration document: a `name` plus the
remaining mapping entries, which the program never inspects. -/
structure ProxyEntry where
  name : String
  fields : List (String × String)
deriving DecidableEq, Repr

/-- Proxy group of the configuration document: an optional member-name
list (absent when the mapping has no `proxies` key) plus the remaining
entries. -/
structure ProxyGroup where
  gfields : List (String × String)
  members : Option (List String)
deriving DecidableEq, Repr

/-- Configuration document: the `proxies` sequence, the optional
`proxy-groups` sequence and the remaining top-level entries. -/
structure ClashConfig where
  proxies : List ProxyEntry
  proxyGroups : Option (List ProxyGroup)
  rest : List (String × String)
deriving DecidableEq, Repr

/-- Proxy renaming loop of `save_config_results` (clash_automator.py lines
85-94): walk the entries in order, rename those present in the results
map, and accumulate the old-to-new `name_mapping`. -/
def renameLoopAux (resultsMap : List (String × String)) :
    List ProxyEntry → List ProxyEntry → List (String × String) →
    List ProxyEntry × List (String × String)
  | [], acc, nm => (acc, nm)
  | p :: restP, acc, nm =>
    match dlookup resultsMap p.name with
    | some summary =>
      let newName := p.name ++ " " ++ summary
      renameLoopAux resultsMap restP (acc ++ [⟨newName, p.fields⟩]) (dictInsert nm p.name newName)
    | none => renameLoopAux resultsMap restP (acc ++ [p]) nm

/-- Models `save_config_results` (clash_automator.py lines 77-113) without
the final file write: rename annotated proxies, then patch every group
member list through the accumulated name mapping.  Returns the rewritten
document and the name mapping. -/
def save_config_results (cfg : ClashConfig) (resultsMap : List (String × String)) :
    ClashConfig × List (String × String) :=
  let pr := renameLoopAux resultsMap cfg.proxies [] []
  let newProxies := pr.1
  let nameMapping := pr.2
  let newGroups : Option (List ProxyGroup) :=
    match cfg.proxyGroups with
    | none => none
    | some gs =>
      some (gs.map (fun g =>
        match g.members with
        | none => g
        | some ms =>
          ⟨g.gfields, some (ms.map (fun n =>
            match dlookup nameMapping n with
            | some nn => nn
            | none => n))⟩))
  (⟨newProxies, newGroups, cfg.rest⟩, nameMapping)

/-- Accumulated state of the per-entry loop of `main`: the results map and
the list of names handed to `test_single_proxy` (each such name is
switched to and probed). -/
structure LoopState where
  results : List (String × String)
  attempted : List String
deriving DecidableEq, Repr

/-- Models the per-entry loop of `main` (clash_automator.py lines 156-174)
over the entry names.  `oracle` gives the `full_string` of the
`test_single_proxy` outcome for each probed entry (the composite of
switching, probing and retrying against the external environment).
`fuel = some j` models a `KeyboardInterrupt` raised at the top of the loop
after `j` completed iterations; `fuel = none` is an uninterrupted run. -/
def mainLoopAux (kws : List String) (oracle : String → String) :
    List String → Option Nat → LoopState → LoopState
  | [], _, st => st
  | n :: rest, fuel, st =>
    match fuel with
    | some 0 => st
    | some (k + 1) =>
      if shouldSkip kws n then mainLoopAux kws oracle rest (some k) st
      else mainLoopAux kws oracle rest (some k)
        ⟨dictInsert st.results n (oracle n), st.attempted ++ [n]⟩
    | none =>
      if shouldSkip kws n then mainLoopAux kws oracle rest none st
      else mainLoopAux kws oracle rest none
        ⟨dictInsert st.results n (oracle n), st.attempted ++ [n]⟩

/-- Observable outcome of one `main` run (clash_automator.py lines
115-187). -/
structure MainRun where
  resultsMap : List (String × String)
  attempted : List String
  checkerStopped : Bool
  output : ClashConfig
deriving Repr

/-- Models `main` after config loading: run the per-entry loop (possibly
cut short by an interrupt), release the prober session in the `finally`
block — which Python executes on the normal, interrupted and raising paths
alike, hence `checkerStopped` is unconditionally true — and feed the
accumulated results map to `save_config_results` on every path. -/
def runMain (cfg : ClashConfig) (kws : List String) (oracle : String → String)
    (fuel : Option Nat) : MainRun :=
  let st := mainLoopAux kws oracle (cfg.proxies.map ProxyEntry.name) fuel ⟨[], []⟩
  ⟨st.results, st.attempted, true, (save_config_results cfg st.results).1⟩

/-- Per-entry renaming of the config rewriter, as the spec describes it:
an entry whose name is an annotation key gets the name formed of the
original, one space and the summary; every other entry is unchanged. -/
def renameFun (m : List (String × String)) (p : ProxyEntry) : ProxyEntry :=
  match dlookup m p.name with
  | some s => ⟨p.name ++ " " ++ s, p.fields⟩
  | none => p

/-! ## Concrete fixtures used to instantiate the general theorems -/

/-- Skip keyword sample, a sublist of the configured default. -/
def kwsEx : List String := ["剩余", "到期"]

/-- Probe outcome oracle sample: every probed entry yields the same
summary string. -/
def oracleEx : String → String := fun _ => "【⚪⚪ 数据中心|AWS】"

/-- Configuration document sample: five proxies, one of which matches a
skip keyword, and two groups, one without a member list. -/
def cfgEx : ClashConfig :=
  ⟨[⟨"node-A", [("type", "ss")]⟩, ⟨"剩余流量", []⟩, ⟨"node-B", []⟩,
    ⟨"node-C", []⟩, ⟨"node-D", []⟩],
   some [⟨[("type", "select")], some ["node-A", "剩余流量", "node-B", "node-C", "node-D"]⟩,
         ⟨[("type", "url-test")], none⟩],
   [("port", "7890")]⟩

/-- Annotation map sample covering two of the five entries of `cfgEx`. -/
def amapEx : List (String × String) :=
  [("node-A", "【⚪⚪ 数据中心|AWS】"), ("node-B", "【🟢⚪ x|y】")]

/-- Page extraction sample: all five searches succeed; the source line
ends in a space once the trailing `IP` is removed. -/
def page9 : PageText := ⟨some "8%", some "bot 2%", some "数据中心", some "AWS IP", none⟩

/-- Probe environment sample: quick lookup resolves, navigation succeeds
with the `page9` extractions. -/
def env9 : CheckEnv := ⟨some "1.2.3.45", .ok page9⟩

/-- Probe environment sample for a second call resolving to the address
already cached by a run on `env9`. -/
def env9b : CheckEnv := ⟨some "1.2.3.45", .ok ⟨none, none, none, none, none⟩⟩

/-- Probe environment sample where navigation raises. -/
def envE7 : CheckEnv := ⟨none, .error "Timeout 20000ms exceeded"⟩

/-- Checker result sample: a satisfactory probe. -/
def rGoodW : EvalResult :=
  ⟨"⚪", "⚪", "数据中心", "AWS", "8%", "2%", "【⚪⚪ 数据中心|AWS】", "1.2.3.45", none⟩

/-- Checker result sample: an unsatisfactory probe (unresolved purity
score). -/
def rBadW : EvalResult :=
  ⟨"❓", "❓", "❓", "❓", "❓", "❓", "【❌ 错误】", "1.2.3.45", some "timeout"⟩

/-! ## Dictionary lemmas -/

/-- Dict assignment semantics at the lookup level: the assigned key maps to
the new value, every other key is untouched. -/
theorem dlookup_dictInsert {β : Type} :
    ∀ (m : List (String × β)) (k : String) (v : β) (x : String),
      dlookup (dictInsert m k v) x = if x = k then some v else dlookup m x := by
  intro m
  induction m with
  | nil => intro k v x; simp [dictInsert, dlookup]
  | cons p rest ih =>
    intro k v x
    obtain ⟨k0, v0⟩ := p
    by_cases h0 : k0 = k
    · subst h0
      by_cases hx : x = k0 <;> simp [dictInsert, dlookup, hx]
    · by_cases hx : x = k0
      · have h1 : ¬x = k := by rw [hx]; exact h0
        simp [dictInsert, dlookup, h0, hx, h1]
      · simp [dictInsert, dlookup, h0, hx, ih]

/-! ## Config rewriter lemmas -/

/-- The proxy output of the renaming loop is the positional image of the
input under the per-entry renaming. -/
theorem renameLoopAux_fst (m : List (String × String)) :
    ∀ (l : List ProxyEntry) (acc : List ProxyEntry) (nm : List (String × String)),
      (renameLoopAux m l acc nm).1 = acc ++ l.map (renameFun m) := by
  intro l
  induction l with
  | nil => intro acc nm; simp [renameLoopAux]
  | cons p rest ih =>
    intro acc nm
    cases h : dlookup m p.name <;>
      simp [renameLoopAux, h, ih, renameFun]

/-- Lookup characterization of the accumulated name mapping: a name maps
to its annotated form exactly when it names a walked entry and carries an
annotation. -/
theorem renameLoopAux_snd (m : List (String × String)) :
    ∀ (l : List ProxyEntry) (acc : List ProxyEntry) (nm : List (String × String)) (x : String),
      dlookup (renameLoopAux m l acc nm).2 x =
        if x ∈ l.map ProxyEntry.name ∧ (dlookup m x).isSome then
          (dlookup m x).map (fun s => x ++ " " ++ s)
        else dlookup nm x := by
  intro l
  induction l with
  | nil => intro acc nm x; simp [renameLoopAux]
  | cons p rest ih =>
    intro acc nm x
    cases h : dlookup m p.name with
    | some s =>
      have step : renameLoopAux m (p :: rest) acc nm =
          renameLoopAux m rest (acc ++ [⟨p.name ++ " " ++ s, p.fields⟩])
            (dictInsert nm p.name (p.name ++ " " ++ s)) := by
        simp [renameLoopAux, h]
      rw [step, ih, dlookup_dictInsert]
      by_cases hx : x = p.name
      · by_cases hr : x ∈ rest.map ProxyEntry.name <;> simp [hx, hr, h]
      · simp [hx]
    | none =>
      have step : renameLoopAux m (p :: rest) acc nm =
          renameLoopAux m rest (acc ++ [p]) nm := by
        simp [renameLoopAux, h]
      rw [step, ih]
      by_cases hx : x = p.name
      · simp [hx, h]
      · simp [hx]

/-! ## Orchestrator loop lemmas -/

/-- An interrupt after `j` iterations is the uninterrupted run on the
first `j` entries. -/
theorem mainLoopAux_fuel (kws : List String) (oracle : String → String) :
    ∀ (names : List String) (j : Nat) (st : LoopState),
      mainLoopAux kws oracle names (some j) st =
        mainLoopAux kws oracle (names.take j) none st := by
  intro names
  induction names with
  | nil => intro j st; simp [mainLoopAux]
  | cons n rest ih =>
    intro j st
    cases j with
    | zero => simp [mainLoopAux]
    | succ k =>
      by_cases h : shouldSkip kws n <;>
        simp [mainLoopAux, h, ih]

/-- Results accumulated by the uninterrupted loop: an eligible walked name
maps to its oracle summary, everything else keeps its prior binding. -/
theorem mainLoopAux_results (kws : List String) (oracle : String → String) :
    ∀ (names : List String) (st : LoopState) (x : String),
      dlookup (mainLoopAux kws oracle names none st).results x =
        if x ∈ names ∧ shouldSkip kws x = false then some (oracle x)
        else dlookup st.results x := by
  intro names
  induction names with
  | nil => intro st x; simp [mainLoopAux]
  | cons n rest ih =>
    intro st x
    cases hsk : shouldSkip kws n with
    | true =>
      have step : mainLoopAux kws oracle (n :: rest) none st =
          mainLoopAux kws oracle rest none st := by
        simp [mainLoopAux, hsk]
      rw [step, ih]
      by_cases hx : x = n
      · simp [hx, hsk]
      · simp [hx]
    | false =>
      have step : mainLoopAux kws oracle (n :: rest) none st =
          mainLoopAux kws oracle rest none
            ⟨dictInsert st.results n (oracle n), st.attempted ++ [n]⟩ := by
        simp [mainLoopAux, hsk]
      rw [step, ih]
      by_cases hx : x = n
      · by_cases hr : x ∈ rest <;>
          simp [hx, hsk, hr, dlookup_dictInsert]
      · simp [hx, dlookup_dictInsert]

/-- Names handed to `test_single_proxy` by the uninterrupted loop: exactly
the walked eligible names, on top of whatever was already recorded. -/
theorem mainLoopAux_attempted (kws : List String) (oracle : String → String) :
    ∀ (names : List String) (st : LoopState) (x : String),
      (x ∈ (mainLoopAux kws oracle names none st).attempted ↔
        x ∈ st.attempted ∨ (x ∈ names ∧ shouldSkip kws x = false)) := by
  intro names
  induction names with
  | nil => intro st x; simp [mainLoopAux]
  | cons n rest ih =>
    intro st x
    cases hsk : shouldSkip kws n with
    | true =>
      have step : mainLoopAux kws oracle (n :: rest) none st =
          mainLoopAux kws oracle rest none st := by
        simp [mainLoopAux, hsk]
      rw [step, ih]
      constructor
      · rintro (h | ⟨h1, h2⟩)
        · exact Or.inl h
        · exact Or.inr ⟨List.mem_cons_of_mem n h1, h2⟩
      · rintro (h | ⟨h1, h2⟩)
        · exact Or.inl h
        · rcases List.mem_cons.mp h1 with h1 | h1
          · exfalso
            rw [h1] at h2
            rw [hsk] at h2
            exact Bool.noConfusion h2
          · exact Or.inr ⟨h1, h2⟩
    | false =>
      have step : mainLoopAux kws oracle (n :: rest) none st =
          mainLoopAux kws oracle rest none
            ⟨dictInsert st.results n (oracle n), st.attempted ++ [n]⟩ := by
        simp [mainLoopAux, hsk]
      rw [step, ih]
      simp only [List.mem_append, List.mem_cons, List.not_mem_nil, or_false]
      constructor
      · rintro ((h | h) | ⟨h1, h2⟩)
        · exact Or.inl h
        · exact Or.inr ⟨Or.inl h, by rw [h]; exact hsk⟩
        · exact Or.inr ⟨Or.inr h1, h2⟩
      · rintro (h | ⟨h1 | h1, h2⟩)
        · exact Or.inl (Or.inl h)
        · exact Or.inl (Or.inr h1)
        · exact Or.inr ⟨h1, h2⟩

/-- Positional reading of take-membership for lists without duplicate
entries: the entry at position `i` is among the first `j` exactly when
`i < j`. -/
theorem mem_take_iff_of_nodup {names : List String} {i : Nat} {x : String}
    (hN : names.Nodup) (hi : names[i]? = some x) (j : Nat) :
    x ∈ names.take j ↔ i < j := by
  constructor
  · intro hmem
    rcases List.getElem?_of_mem hmem with ⟨n, hn⟩
    have hlen : n < (names.take j).length := by
      rcases List.getElem?_eq_some.mp hn with ⟨h, _⟩
      exact h
    have hnj : n < j := lt_of_lt_of_le hlen (by rw [List.length_take]; exact inf_le_left)
    have hn' : names[n]? = some x := by
      rw [← List.getElem?_take_of_lt hnj]; exact hn
    have hilen : i < names.length := by
      rcases List.getElem?_eq_some.mp hi with ⟨h, _⟩
      exact h
    have : i = n := List.getElem?_inj hilen hN (hi.trans hn'.symm)
    rw [this]; exact hnj
  · intro hij
    have : (names.take j)[i]? = some x := by
      rw [List.getElem?_take_of_lt hij]; exact hi
    exact List.getElem?_mem this

/-! ## String stripping lemmas -/

/-- A string whose character list is empty is the empty string. -/
theorem string_data_nil {s : String} (h : s.data = []) : s = "" := by
  cases s with
  | mk l => simp at h; rw [h]

/-- The head survivor of a `dropWhile` fails the predicate. -/
theorem dropWhile_head_not {α : Type} (p : α → Bool) :
    ∀ {l : List α} {c : α} {cs : List α}, l.dropWhile p = c :: cs → p c = false := by
  intro l
  induction l with
  | nil => intro c cs h; simp [List.dropWhile] at h
  | cons a t ih =>
    intro c cs h
    by_cases ha : p a
    · rw [List.dropWhile_cons, if_pos ha] at h
      exact ih h
    · rw [List.dropWhile_cons, if_neg ha] at h
      have hac : a = c := (List.cons.inj h).1
      rw [← hac]
      simpa using ha

/-- The first character of a stripped string is not whitespace. -/
theorem pyStripList_head : ∀ {l : List Char} {c : Char} {cs : List Char},
    pyStripList l = c :: cs → isPySpace c = false := by
  intro l c cs h
  unfold pyStripList at h
  rcases List.dropWhile_suffix (l := (l.dropWhile isPySpace).reverse) isPySpace with ⟨t, ht⟩
  have hm : l.dropWhile isPySpace =
      ((l.dropWhile isPySpace).reverse.dropWhile isPySpace).reverse ++ t.reverse := by
    have h2 := congrArg List.reverse ht
    simpa [List.reverse_append] using h2.symm
  rw [h] at hm
  exact dropWhile_head_not isPySpace (by simpa using hm)

/-- Deleting the trailing `IP` keeps the first character. -/
theorem removeIPSuffixList_head : ∀ {l : List Char} {c : Char} {cs : List Char},
    removeIPSuffixList l = c :: cs → ∃ t, l = c :: t := by
  intro l c cs h
  unfold removeIPSuffixList at h
  by_cases hif : l.reverse.take 2 = ['P', 'I']
  · rw [if_pos hif] at h
    rcases List.drop_suffix 2 l.reverse with ⟨t, ht⟩
    have hl : l = (l.reverse.drop 2).reverse ++ t.reverse := by
      have h2 := congrArg List.reverse ht
      simpa [List.reverse_append] using h2.symm
    rw [h] at hl
    exact ⟨cs ++ t.reverse, by simpa using hl⟩
  · rw [if_neg hif] at h
    exact ⟨cs, h⟩

/-- The attribute and source fields built by the checker never start with
whitespace: they are either the sentinel or a stripped, de-suffixed line. -/
theorem stripped_head_not_space {raw : String} {c : Char} {cs : List Char}
    (h : (removeIPSuffix (pyStrip raw)).data = c :: cs) : isPySpace c = false := by
  have h1 : removeIPSuffixList (pyStripList raw.data) = c :: cs := h
  rcases removeIPSuffixList_head h1 with ⟨t, ht⟩
  exact pyStripList_head ht

/-- Head fact for `checkIpAttr`: in the sentinel case the head is the
question mark, which is not whitespace; otherwise the stripping lemma
applies. -/
theorem checkIpAttr_head (page : PageText) :
    ∀ {c : Char} {cs : List Char},
      (checkIpAttr page).data = c :: cs → isPySpace c = false := by
  intro c cs h
  unfold checkIpAttr at h
  cases hm : page.attrMatch with
  | some raw => rw [hm] at h; exact stripped_head_not_space h
  | none =>
    rw [hm] at h
    have : c = '❓' := by
      have h2 : ('❓' : Char) :: ([] : List Char) = c :: cs := by
        rw [← h]
      exact (List.cons.inj h2).1.symm
    rw [this]
    decide

/-- Head fact for `checkIpSrc`, identical to the attribute case. -/
theorem checkIpSrc_head (page : PageText) :
    ∀ {c : Char} {cs : List Char},
      (checkIpSrc page).data = c :: cs → isPySpace c = false := by
  intro c cs h
  unfold checkIpSrc at h
  cases hm : page.srcMatch with
  | some raw => rw [hm] at h; exact stripped_head_not_space h
  | none =>
    rw [hm] at h
    have : c = '❓' := by
      have h2 : ('❓' : Char) :: ([] : List Char) = c :: cs := by
        rw [← h]
      exact (List.cons.inj h2).1.symm
    rw [this]
    decide

/-- Dropping leading whitespace keeps the number of non-whitespace
characters. -/
theorem countP_dropWhile_nonspace : ∀ (l : List Char),
    (l.dropWhile isPySpace).countP (fun c => !isPySpace c) =
      l.countP (fun c => !isPySpace c) := by
  intro l
  induction l with
  | nil => rfl
  | cons a t ih =>
    by_cases ha : isPySpace a
    · rw [List.dropWhile_cons, if_pos ha, ih, List.countP_cons]
      simp [ha]
    · rw [List.dropWhile_cons, if_neg ha]

/-- Stripping keeps the number of non-whitespace characters. -/
theorem countP_pyStripList (l : List Char) :
    (pyStripList l).countP (fun c => !isPySpace c) =
      l.countP (fun c => !isPySpace c) := by
  unfold pyStripList
  rw [List.countP_reverse, countP_dropWhile_nonspace, List.countP_reverse,
    countP_dropWhile_nonspace]

/-- Counting step for a head character satisfying the predicate. -/
theorem countP_cons_true {p : Char → Bool} {c : Char} (hc : p c = true) (l : List Char) :
    (c :: l).countP p = l.countP p + 1 := by
  rw [List.countP_cons, hc]
  rfl

/-- Stripping the bar-joined attribute and source cannot collapse to a
bare bar or to nothing when at least one side is non-empty: both sides
start with a non-whitespace character when non-empty, and stripping keeps
every non-whitespace character. -/
theorem pyStrip_concat_ne (attrV srcV : String)
    (ha : ∀ c cs, attrV.data = c :: cs → isPySpace c = false)
    (hs : ∀ c cs, srcV.data = c :: cs → isPySpace c = false)
    (h : ¬(attrV = "" ∧ srcV = "")) :
    pyStrip (attrV ++ "|" ++ srcV) ≠ "|" ∧ pyStrip (attrV ++ "|" ++ srcV) ≠ "" := by
  have hdata : (attrV ++ "|" ++ srcV).data = attrV.data ++ '|' :: srcV.data := by
    rw [String.data_append, String.data_append, List.append_assoc]
    rfl
  have hbar : (fun c => !isPySpace c) '|' = true := by decide
  have hside : 1 ≤ attrV.data.countP (fun c => !isPySpace c) +
      srcV.data.countP (fun c => !isPySpace c) := by
    by_cases hA : attrV = ""
    · have hS : srcV ≠ "" := fun hS => h ⟨hA, hS⟩
      cases hsd : srcV.data with
      | nil => exact absurd (string_data_nil hsd) hS
      | cons c cs =>
        have hc : (fun x => !isPySpace x) c = true := by simp [hs c cs hsd]
        rw [countP_cons_true hc]
        omega
    · cases had : attrV.data with
      | nil => exact absurd (string_data_nil had) hA
      | cons c cs =>
        have hc : (fun x => !isPySpace x) c = true := by simp [ha c cs had]
        rw [countP_cons_true hc]
        omega
  have hcount : 2 ≤ (attrV ++ "|" ++ srcV).data.countP (fun c => !isPySpace c) := by
    rw [hdata, List.countP_append, countP_cons_true hbar]
    omega
  have hpres : (pyStrip (attrV ++ "|" ++ srcV)).data.countP (fun c => !isPySpace c) =
      (attrV ++ "|" ++ srcV).data.countP (fun c => !isPySpace c) :=
    countP_pyStripList _
  constructor
  · intro hcontra
    have hd : (pyStrip (attrV ++ "|" ++ srcV)).data = ['|'] := by rw [hcontra]
    have hone : (['|'] : List Char).countP (fun c => !isPySpace c) = 1 := by decide
    rw [hd, hone] at hpres
    omega
  · intro hcontra
    have hd : (pyStrip (attrV ++ "|" ++ srcV)).data = [] := by rw [hcontra]
    have hzero : ([] : List Char).countP (fun c => !isPySpace c) = 0 := rfl
    rw [hd, hzero] at hpres
    omega

/-- Characterization of the summary-info construction: when both usable
sides are empty the bar-substitution fires and yields the unknown
placeholder; otherwise the info is the stripped bar-join and neither
substitution fires. -/
theorem checkInfo_eq (a s : String)
    (ha : ∀ c cs, a.data = c :: cs → isPySpace c = false)
    (hs : ∀ c cs, s.data = c :: cs → isPySpace c = false) :
    checkInfo a s =
      if (if a ≠ "❓" then a else "") = "" ∧ (if s ≠ "❓" then s else "") = "" then "未知"
      else pyStrip ((if a ≠ "❓" then a else "") ++ "|" ++ (if s ≠ "❓" then s else "")) := by
  have ha' : ∀ c cs, (if a ≠ "❓" then a else "").data = c :: cs → isPySpace c = false := by
    intro c cs hd
    by_cases h1 : a ≠ "❓"
    · rw [if_pos h1] at hd; exact ha c cs hd
    · rw [if_neg h1] at hd; simp at hd
  have hs' : ∀ c cs, (if s ≠ "❓" then s else "").data = c :: cs → isPySpace c = false := by
    intro c cs hd
    by_cases h1 : s ≠ "❓"
    · rw [if_pos h1] at hd; exact hs c cs hd
    · rw [if_neg h1] at hd; simp at hd
  by_cases hboth : (if a ≠ "❓" then a else "") = "" ∧ (if s ≠ "❓" then s else "") = ""
  · rw [if_pos hboth]
    unfold checkInfo
    rw [hboth.1, hboth.2]
    decide
  · rw [if_neg hboth]
    unfold checkInfo
    dsimp only
    rcases pyStrip_concat_ne _ _ ha' hs' hboth with ⟨hne1, hne2⟩
    rw [if_neg hne1, if_neg hne2]

/-! ## Check path lemmas -/

/-- Cache-hit path of `check`: a truthy quick lookup whose address is
cached returns the stored result, leaves the cache untouched, and skips
navigation. -/
theorem check_hit (cache : Cache) (env : CheckEnv) (ip : String) (r : EvalResult)
    (h1 : env.quickIp = some ip) (h2 : ip ≠ "") (h3 : dlookup cache ip = some r) :
    check cache env = (r, cache, false) := by
  unfold check
  rw [h1]
  simp [h2, h3]

/-- Error path of `check` on a cache miss: the exception text lands in the
result, the fixed error summary is used, the cache is untouched. -/
theorem check_miss_error (cache : Cache) (env : CheckEnv) (e : String)
    (hmiss : ∀ a, env.quickIp = some a → a ≠ "" → dlookup cache a = none)
    (hnav : env.nav = .error e) :
    check cache env = (checkErrorResult (checkInitIp env.quickIp) e, cache, true) := by
  unfold check
  cases hq : env.quickIp with
  | none => rw [hnav]
  | some ip =>
    by_cases h2 : ip = ""
    · rw [hnav]
      simp [h2]
    · have h3 := hmiss ip hq h2
      rw [hnav]
      simp [h2, h3]

/-- Success path of `check` on a cache miss: the result is built from the
extractions; the cache is updated through the guarded write. -/
theorem check_miss_ok (cache : Cache) (env : CheckEnv) (page : PageText)
    (hmiss : ∀ a, env.quickIp = some a → a ≠ "" → dlookup cache a = none)
    (hnav : env.nav = .ok page) :
    check cache env = (buildCheckResult (checkInitIp env.quickIp) page,
      cacheAfter cache (buildCheckResult (checkInitIp env.quickIp) page), true) := by
  unfold check
  cases hq : env.quickIp with
  | none => rw [hnav]
  | some ip =>
    by_cases h2 : ip = ""
    · rw [hnav]
      simp [h2]
    · have h3 := hmiss ip hq h2
      rw [hnav]
      simp [h2, h3]

/-! ## Claim theorems -/

/-- C1: config rewriting postcondition.  For every configuration document
and annotation map: the proxy list keeps its length; positionally, an
entry whose name is an annotation key gets the name formed of the original
name, one space and the summary (fields untouched) and every other entry
is unchanged; the derived name-rewrite map binds exactly the annotated
proxy names to their new names; a document without groups stays without
groups; every group keeps its position, its non-membership fields and its
member-list length, with each member name that is a key of the rewrite
map replaced in place and every other member untouched; the remaining
top-level fields are unchanged. -/
theorem c1_config_rewrite (cfg : ClashConfig) (m : List (String × String)) :
    (save_config_results cfg m).1.proxies.length = cfg.proxies.length
    ∧ (∀ i : Nat, (save_config_results cfg m).1.proxies[i]? =
        (cfg.proxies[i]?).map (fun p =>
          match dlookup m p.name with
          | some s => ⟨p.name ++ " " ++ s, p.fields⟩
          | none => p))
    ∧ (∀ x : String, dlookup (save_config_results cfg m).2 x =
        if x ∈ cfg.proxies.map ProxyEntry.name ∧ (dlookup m x).isSome then
          (dlookup m x).map (fun s => x ++ " " ++ s)
        else none)
    ∧ (cfg.proxyGroups = none → (save_config_results cfg m).1.proxyGroups = none)
    ∧ (∀ gs, cfg.proxyGroups = some gs →
        (save_config_results cfg m).1.proxyGroups = some (gs.map (fun g =>
          ⟨g.gfields, g.members.map (fun ms => ms.map (fun n =>
            match dlookup (save_config_results cfg m).2 n with
            | some nn => nn
            | none => n))⟩)))
    ∧ (save_config_results cfg m).1.rest = cfg.rest := by
  have hfst : (save_config_results cfg m).1.proxies = cfg.proxies.map (renameFun m) := by
    unfold save_config_results
    simp [renameLoopAux_fst]
  have hsnd : (save_config_results cfg m).2 = (renameLoopAux m cfg.proxies [] []).2 := rfl
  refine ⟨?_, ?_, ?_, ?_, ?_, ?_⟩
  · rw [hfst, List.length_map]
  · intro i
    rw [hfst, List.getElem?_map]
    rfl
  · intro x
    rw [hsnd, renameLoopAux_snd]
    simp [dlookup]
  · intro h
    simp [save_config_results, h]
  · intro gs hgs
    have hgrp : (save_config_results cfg m).1.proxyGroups =
        some (gs.map (fun g =>
          match g.members with
          | none => g
          | some ms =>
            ⟨g.gfields, some (ms.map (fun n =>
              match dlookup (renameLoopAux m cfg.proxies [] []).2 n with
              | some nn => nn
              | none => n))⟩)) := by
      simp [save_config_results, hgs]
    rw [hgrp, ← hsnd]
    congr 1
    apply List.map_congr_left
    intro g _
    cases hmem : g.members with
    | none =>
      cases g with
      | mk gf ms =>
        simp at hmem
        rw [hmem]
        rfl
    | some ms => simp [hmem]
  · simp [save_config_results]

/-- Projection fact: the success-path result never carries an error. -/
theorem buildCheckResult_error (i : String) (p : PageText) :
    (buildCheckResult i p).error = none := rfl

/-- Projection fact: the summary string of the success-path result. -/
theorem buildCheckResult_full_string (i : String) (p : PageText) :
    (buildCheckResult i p).full_string =
      "【" ++ (buildCheckResult i p).pure_emoji ++ (buildCheckResult i p).bot_emoji ++ " " ++
        checkInfo (buildCheckResult i p).ip_attr (buildCheckResult i p).ip_src ++ "】" := rfl

/-- Projection fact: the attribute field of the success-path result. -/
theorem buildCheckResult_ip_attr (i : String) (p : PageText) :
    (buildCheckResult i p).ip_attr = checkIpAttr p := rfl

/-- Projection fact: the source field of the success-path result. -/
theorem buildCheckResult_ip_src (i : String) (p : PageText) :
    (buildCheckResult i p).ip_src = checkIpSrc p := rfl

/-- Projection fact: the resolved address is kept whenever it is not the
sentinel. -/
theorem buildCheckResult_ip (i : String) (p : PageText) (h : i ≠ "❓") :
    (buildCheckResult i p).ip = i := by
  show (if i = "❓" then (match p.ipMatch with | some s => s | none => "❓") else i) = i
  rw [if_neg h]

/-- A binding surviving the guarded cache write is either an old binding
or the freshly probed result passing the guard, keyed by its own address. -/
theorem cacheAfter_lookup (cache : Cache) (r : EvalResult) (a : String) (v : EvalResult)
    (hv : dlookup (cacheAfter cache r) a = some v) :
    dlookup cache a = some v ∨
      (v = r ∧ r.ip ≠ "❓" ∧ r.pure_score ≠ "❓" ∧ a = r.ip) := by
  unfold cacheAfter at hv
  by_cases hg : r.ip ≠ "❓" ∧ r.pure_score ≠ "❓"
  · rw [if_pos hg, dlookup_dictInsert] at hv
    by_cases ha : a = r.ip
    · rw [if_pos ha] at hv
      exact Or.inr ⟨(Option.some.inj hv).symm, hg.1, hg.2, ha⟩
    · rw [if_neg ha] at hv
      exact Or.inl hv
  · rw [if_neg hg] at hv
    exact Or.inl hv

/-- Path disjunction for `check`: either the cache is returned untouched
(cache hit or navigation error), or the call went down the success path
and both the result and the new cache come from `buildCheckResult`. -/
theorem check_cases (cache : Cache) (env : CheckEnv) :
    (check cache env).2.1 = cache ∨
      (∃ page, env.nav = Except.ok page ∧
        check cache env = (buildCheckResult (checkInitIp env.quickIp) page,
          cacheAfter cache (buildCheckResult (checkInitIp env.quickIp) page), true)) := by
  by_cases hhit : ∃ ip r, env.quickIp = some ip ∧ ip ≠ "" ∧ dlookup cache ip = some r
  · rcases hhit with ⟨ip, r, h1, h2, h3⟩
    left
    rw [check_hit cache env ip r h1 h2 h3]
  · have hmiss : ∀ a, env.quickIp = some a → a ≠ "" → dlookup cache a = none := by
      intro a h1 h2
      cases hl : dlookup cache a with
      | none => rfl
      | some r => exact absurd ⟨a, r, h1, h2, hl⟩ hhit
    cases hnav : env.nav with
    | error e =>
      left
      rw [check_miss_error cache env e hmiss hnav]
    | ok page =>
      right
      exact ⟨page, rfl, check_miss_ok cache env page hmiss hnav⟩

/-- C1 witness: instantiating the rewrite postcondition on the sample
document and annotation map yields the expected rewritten group. -/
theorem c1_config_rewrite_witness :
    (save_config_results cfgEx amapEx).1.proxyGroups =
      some [⟨[("type", "select")],
             some ["node-A 【⚪⚪ 数据中心|AWS】", "剩余流量", "node-B 【🟢⚪ x|y】",
               "node-C", "node-D"]⟩,
            ⟨[("type", "url-test")], none⟩] := by
  have h := (c1_config_rewrite cfgEx amapEx).2.2.2.2.1
    [⟨[("type", "select")], some ["node-A", "剩余流量", "node-B", "node-C", "node-D"]⟩,
     ⟨[("type", "url-test")], none⟩] rfl
  rw [h]
  decide

/-- C2: interrupt-safe partial output.  For a run interrupted at the top
of the loop after `j` completed iterations over a document with pairwise
distinct proxy names: the prober session is released (the `finally`
teardown runs), the output keeps the proxy-list length, and positionally
every eligible entry among the first `j` is renamed with its probe
summary through the same rewrite path as normal completion while every
other entry is returned identical to the input. -/
theorem c2_interrupt_partial_output (cfg : ClashConfig) (kws : List String)
    (oracle : String → String) (j : Nat)
    (hN : (cfg.proxies.map ProxyEntry.name).Nodup) :
    (runMain cfg kws oracle (some j)).checkerStopped = true
    ∧ (runMain cfg kws oracle (some j)).output.proxies.length = cfg.proxies.length
    ∧ (∀ i p, cfg.proxies[i]? = some p →
        (runMain cfg kws oracle (some j)).output.proxies[i]? =
          some (if i < j ∧ shouldSkip kws p.name = false
            then ⟨p.name ++ " " ++ oracle p.name, p.fields⟩
            else p)) := by
  have hres : ∀ x, dlookup (runMain cfg kws oracle (some j)).resultsMap x =
      if x ∈ (cfg.proxies.map ProxyEntry.name).take j ∧ shouldSkip kws x = false
      then some (oracle x) else none := by
    intro x
    show dlookup (mainLoopAux kws oracle (cfg.proxies.map ProxyEntry.name)
      (some j) ⟨[], []⟩).results x = _
    rw [mainLoopAux_fuel, mainLoopAux_results]
    exact rfl
  have hout : (runMain cfg kws oracle (some j)).output.proxies =
      cfg.proxies.map (renameFun (runMain cfg kws oracle (some j)).resultsMap) := by
    show (save_config_results cfg _).1.proxies = _
    unfold save_config_results
    simp [renameLoopAux_fst]
    exact fun a _ => rfl
  refine ⟨rfl, ?_, ?_⟩
  · rw [hout, List.length_map]
  · intro i p hp
    rw [hout, List.getElem?_map, hp, Option.map_some']
    congr 1
    unfold renameFun
    have hname : (cfg.proxies.map ProxyEntry.name)[i]? = some p.name := by
      rw [List.getElem?_map, hp]; rfl
    have hmem := mem_take_iff_of_nodup hN hname j
    rw [hres p.name]
    by_cases hij : i < j
    · by_cases hsk : shouldSkip kws p.name = false
      · rw [if_pos ⟨hmem.mpr hij, hsk⟩, if_pos ⟨hij, hsk⟩]
      · rw [if_neg (fun hc => hsk hc.2), if_neg (fun hc => hsk hc.2)]
    · rw [if_neg (fun hc => hij (hmem.mp hc.1)), if_neg (fun hc => hij hc.1)]

/-- C2 witness: interrupting the sample run after three loop iterations
(two eligible entries processed, one skipped) leaves the fourth entry
untouched and still releases the prober. -/
theorem c2_interrupt_partial_output_witness :
    (runMain cfgEx kwsEx oracleEx (some 3)).checkerStopped = true
    ∧ (runMain cfgEx kwsEx oracleEx (some 3)).output.proxies[3]? =
        some ⟨"node-C", []⟩ := by
  have h := c2_interrupt_partial_output cfgEx kwsEx oracleEx 3 (by decide)
  refine ⟨h.1, ?_⟩
  rw [h.2.2 3 ⟨"node-C", []⟩ (by decide)]
  decide

/-- C3: cache write invariant.  If every entry of the cache before a full
check is a complete result (no error, known address, known purity score)
keyed by its own address, the same holds after the check: the only
possible new binding is the freshly built result, which passes the write
guard, and error or partial results are never written. -/
theorem c3_cache_write_invariant (cache : Cache) (env : CheckEnv)
    (hinv : ∀ a v, dlookup cache a = some v →
      v.error = none ∧ v.ip ≠ "❓" ∧ v.pure_score ≠ "❓" ∧ a = v.ip) :
    ∀ a v, dlookup (check cache env).2.1 a = some v →
      v.error = none ∧ v.ip ≠ "❓" ∧ v.pure_score ≠ "❓" ∧ a = v.ip := by
  intro a v hv
  rcases check_cases cache env with hsame | ⟨page, hnav, hck⟩
  · rw [hsame] at hv
    exact hinv a v hv
  · rw [hck] at hv
    rcases cacheAfter_lookup cache _ a v hv with hold | ⟨hveq, h1, h2, h3⟩
    · exact hinv a v hold
    · subst hveq
      exact ⟨buildCheckResult_error _ _, h1, h2, h3⟩

/-- C3 witness: after a successful probe on the empty cache, the binding
for the resolved address satisfies the invariant. -/
theorem c3_cache_write_invariant_witness :
    (check [] env9).1.error = none ∧ (check [] env9).1.ip ≠ "❓" ∧
      (check [] env9).1.pure_score ≠ "❓" ∧ "1.2.3.45" = (check [] env9).1.ip := by
  have h := c3_cache_write_invariant [] env9 (fun a v hv => Option.noConfusion hv)
  exact h "1.2.3.45" (check [] env9).1 (by decide)

/-- C4: cache coherence on hit.  When two probe environments resolve their
quick lookup to the same truthy non-sentinel address, the address was not
cached beforehand, and the first invocation produces a complete result
(no error, resolved purity score, hence cached), then the second
invocation returns exactly the first result and the first cache without
performing any navigation. -/
theorem c4_cache_coherence (c0 : Cache) (env1 env2 : CheckEnv) (a : String)
    (h1 : env1.quickIp = some a) (h2 : env2.quickIp = some a)
    (ha1 : a ≠ "") (ha2 : a ≠ "❓") (h0 : dlookup c0 a = none)
    (herr : (check c0 env1).1.error = none)
    (hps : (check c0 env1).1.pure_score ≠ "❓") :
    check (check c0 env1).2.1 env2 = ((check c0 env1).1, (check c0 env1).2.1, false) := by
  have hmiss : ∀ b, env1.quickIp = some b → b ≠ "" → dlookup c0 b = none := by
    intro b hb _
    rw [h1] at hb
    rw [← Option.some.inj hb]
    exact h0
  have hinit : checkInitIp env1.quickIp = a := by
    rw [h1]
    simp [checkInitIp, ha1]
  cases hnav : env1.nav with
  | error e =>
    have hc := check_miss_error c0 env1 e hmiss hnav
    rw [hc] at herr
    exact absurd herr (by simp [checkErrorResult])
  | ok page =>
    have hc := check_miss_ok c0 env1 page hmiss hnav
    rw [hinit] at hc
    have hip : (buildCheckResult a page).ip = a := buildCheckResult_ip a page ha2
    rw [hc] at hps
    have hps' : (buildCheckResult a page).pure_score ≠ "❓" := hps
    have hcache : cacheAfter c0 (buildCheckResult a page) =
        dictInsert c0 a (buildCheckResult a page) := by
      unfold cacheAfter
      rw [if_pos ⟨by rw [hip]; exact ha2, hps'⟩, hip]
    have hlook : dlookup (cacheAfter c0 (buildCheckResult a page)) a =
        some (buildCheckResult a page) := by
      rw [hcache, dlookup_dictInsert, if_pos rfl]
    rw [hc]
    exact check_hit _ env2 a _ h2 ha1 hlook

/-- C4 witness: a second probe on the sample address hits the cache left
by the first and returns its exact result without navigating. -/
theorem c4_cache_coherence_witness :
    check (check [] env9).2.1 env9b = ((check [] env9).1, (check [] env9).2.1, false) :=
  c4_cache_coherence [] env9 env9b "1.2.3.45" rfl rfl (by decide) (by decide) rfl
    (by decide) (by decide)

/-- C5: retry bound of the browser-mode probe.  With the switch succeeded
and fast mode off: at most two prober attempts are made; a first attempt
with no error and a resolved purity score is accepted immediately after
one attempt; if the first attempt returns an unsatisfactory result, the
second returned result (satisfactory or not) is recorded; if the first
attempt raises and the second returns, the second result is recorded;
only when both attempts raise is the fixed error dictionary used. -/
theorem c5_retry_bound (a1 a2 : Except String EvalResult) :
    (test_single_proxy true false a1 a2).2 ≤ 2
    ∧ (∀ r1, a1 = Except.ok r1 → r1.error = none → r1.pure_score ≠ "❓" →
        (test_single_proxy true false a1 a2).1 = Except.ok r1.toDict ∧
          (test_single_proxy true false a1 a2).2 = 1)
    ∧ (∀ r1 r2, a1 = Except.ok r1 → ¬(r1.error = none ∧ r1.pure_score ≠ "❓") →
        a2 = Except.ok r2 → (test_single_proxy true false a1 a2).1 = Except.ok r2.toDict)
    ∧ (∀ e1 r2, a1 = Except.error e1 → a2 = Except.ok r2 →
        (test_single_proxy true false a1 a2).1 = Except.ok r2.toDict)
    ∧ (∀ e1 e2, a1 = Except.error e1 → a2 = Except.error e2 →
        (test_single_proxy true false a1 a2).1 = Except.ok errorFallbackDict) := by
  refine ⟨?_, ?_, ?_, ?_, ?_⟩
  · cases a1 with
    | ok r1 =>
      by_cases hs1 : r1.error = none ∧ r1.pure_score ≠ "❓"
      · simp [test_single_proxy, checkRetryLoop, hs1]
      · cases a2 with
        | ok r2 =>
          by_cases hs2 : r2.error = none ∧ r2.pure_score ≠ "❓" <;>
            simp [test_single_proxy, checkRetryLoop, hs1, hs2]
        | error e2 => simp [test_single_proxy, checkRetryLoop, hs1]
    | error e1 =>
      cases a2 with
      | ok r2 =>
        by_cases hs2 : r2.error = none ∧ r2.pure_score ≠ "❓" <;>
          simp [test_single_proxy, checkRetryLoop, hs2]
      | error e2 => simp [test_single_proxy, checkRetryLoop]
  · intro r1 h1 he hp
    subst h1
    have hs1 : r1.error = none ∧ r1.pure_score ≠ "❓" := ⟨he, hp⟩
    exact ⟨by simp [test_single_proxy, checkRetryLoop, hs1],
      by simp [test_single_proxy, checkRetryLoop, hs1]⟩
  · intro r1 r2 h1 hns h2
    subst h1; subst h2
    by_cases hs2 : r2.error = none ∧ r2.pure_score ≠ "❓" <;>
      simp [test_single_proxy, checkRetryLoop, hns, hs2]
  · intro e1 r2 h1 h2
    subst h1; subst h2
    by_cases hs2 : r2.error = none ∧ r2.pure_score ≠ "❓" <;>
      simp [test_single_proxy, checkRetryLoop, hs2]
  · intro e1 e2 h1 h2
    subst h1; subst h2
    simp [test_single_proxy, checkRetryLoop]

/-- C5 witness: a first unsatisfactory attempt followed by a satisfactory
second attempt records the second result. -/
theorem c5_retry_bound_witness :
    (test_single_proxy true false (Except.ok rBadW) (Except.ok rGoodW)).1 =
      Except.ok rGoodW.toDict :=
  (c5_retry_bound (Except.ok rBadW) (Except.ok rGoodW)).2.2.1 rBadW rGoodW rfl
    (by decide) rfl

/-- C6: idempotent skip.  For every name containing a configured skip
keyword, on any run (interrupted or not): the name is never handed to
`test_single_proxy` (hence never switched to or probed), it is absent
from the accumulated annotation map, and every proxy entry carrying that
name is returned in the output identical to the input. -/
theorem c6_idempotent_skip (cfg : ClashConfig) (kws : List String)
    (oracle : String → String) (fuel : Option Nat) (x : String)
    (hskip : shouldSkip kws x = true) :
    x ∉ (runMain cfg kws oracle fuel).attempted
    ∧ dlookup (runMain cfg kws oracle fuel).resultsMap x = none
    ∧ (∀ (i : Nat) (p : ProxyEntry), cfg.proxies[i]? = some p → p.name = x →
        (runMain cfg kws oracle fuel).output.proxies[i]? = some p) := by
  obtain ⟨ns, hns⟩ : ∃ ns,
      mainLoopAux kws oracle (cfg.proxies.map ProxyEntry.name) fuel ⟨[], []⟩ =
        mainLoopAux kws oracle ns none ⟨[], []⟩ := by
    cases fuel with
    | none => exact ⟨cfg.proxies.map ProxyEntry.name, rfl⟩
    | some j => exact ⟨(cfg.proxies.map ProxyEntry.name).take j,
        mainLoopAux_fuel kws oracle _ j _⟩
  have hcond : ¬(x ∈ ns ∧ shouldSkip kws x = false) := by
    rintro ⟨_, hc⟩
    rw [hskip] at hc
    exact Bool.noConfusion hc
  have hres : dlookup (runMain cfg kws oracle fuel).resultsMap x = none := by
    show dlookup (mainLoopAux kws oracle (cfg.proxies.map ProxyEntry.name)
      fuel ⟨[], []⟩).results x = none
    rw [hns, mainLoopAux_results, if_neg hcond]
    rfl
  refine ⟨?_, hres, ?_⟩
  · intro hmem
    have hmem' : x ∈ (mainLoopAux kws oracle (cfg.proxies.map ProxyEntry.name)
        fuel ⟨[], []⟩).attempted := hmem
    rw [hns] at hmem'
    rcases (mainLoopAux_attempted kws oracle ns ⟨[], []⟩ x).mp hmem' with h | h
    · simp at h
    · exact hcond h
  · intro i p hp hpx
    have hout : (runMain cfg kws oracle fuel).output.proxies =
        cfg.proxies.map (renameFun (runMain cfg kws oracle fuel).resultsMap) := by
      show (save_config_results cfg _).1.proxies = _
      unfold save_config_results
      simp [renameLoopAux_fst]
      exact fun a _ => rfl
    rw [hout, List.getElem?_map, hp, Option.map_some']
    congr 1
    unfold renameFun
    rw [hpx, hres]

/-- C6 witness: the status entry of the sample document is never probed
and survives the run byte-identical. -/
theorem c6_idempotent_skip_witness :
    "剩余流量" ∉ (runMain cfgEx kwsEx oracleEx none).attempted
    ∧ dlookup (runMain cfgEx kwsEx oracleEx none).resultsMap "剩余流量" = none
    ∧ (runMain cfgEx kwsEx oracleEx none).output.proxies[1]? = some ⟨"剩余流量", []⟩ := by
  have h := c6_idempotent_skip cfgEx kwsEx oracleEx none "剩余流量" (by decide)
  exact ⟨h.1, h.2.1, h.2.2 1 ⟨"剩余流量", []⟩ (by decide) rfl⟩

/-- C7 counterexample: on a navigation failure the checker's fixed error
summary is the Chinese string at ip_checker.py line 248, which is not the
string the claim names. -/
theorem c7_error_summary_counterexample :
    (check [] envE7).1.error = some "Timeout 20000ms exceeded"
    ∧ (check [] envE7).1.full_string = "【❌ 错误】"
    ∧ (check [] envE7).1.full_string ≠ "【❌ Error】" := by
  decide

/-- C7 amended: probe error absorption.  Every navigation or extraction
exception inside the full check, on a cache miss, is caught (the model is
a total function rather than a raising one): the returned result carries
the exception text in its error field, its summary is the fixed error
string `【❌ 错误】`, and nothing is written into the cache. -/
theorem c7_probe_error_absorbed (cache : Cache) (env : CheckEnv) (e : String)
    (hmiss : ∀ a, env.quickIp = some a → a ≠ "" → dlookup cache a = none)
    (hnav : env.nav = Except.error e) :
    (check cache env).1.error = some e
    ∧ (check cache env).1.full_string = "【❌ 错误】"
    ∧ (check cache env).2.1 = cache := by
  rw [check_miss_error cache env e hmiss hnav]
  exact ⟨rfl, rfl, rfl⟩

/-- C7 witness: instantiation on a concrete timeout exception with the
empty cache. -/
theorem c7_probe_error_absorbed_witness :
    (check [] envE7).1.error = some "Timeout 20000ms exceeded"
    ∧ (check [] envE7).1.full_string = "【❌ 错误】"
    ∧ (check [] envE7).2.1 = [] :=
  c7_probe_error_absorbed [] envE7 "Timeout 20000ms exceeded" (fun _ _ _ => rfl) rfl

/-- C8: the quick-lookup regex bug.  The pattern at ip_checker.py line 105
demands an extra 1-to-3-digit run after the fourth dotted group, so the
endpoint body `8.8.8.8` — a syntactically valid dotted quad — is rejected
by both endpoints and the lookup returns unknown, while the non-quad
`1.2.3.456789` is accepted; a body whose last group has two digits, such
as `1.2.3.45`, is returned as the claim expects. -/
theorem c8_quick_lookup_regex_bug :
    get_simple_ip (some (200, "8.8.8.8")) (some (200, "8.8.8.8")) = none
    ∧ isDottedQuad "8.8.8.8" = true
    ∧ simpleIpRegexAccepts "8.8.8.8" = false
    ∧ simpleIpRegexAccepts "1.2.3.456789" = true
    ∧ isDottedQuad "1.2.3.456789" = false
    ∧ get_simple_ip (some (200, "1.2.3.45")) (some (200, "8.8.8.8")) = some "1.2.3.45" := by
  decide

/-- C9 counterexample: a source line ending in ` IP` leaves a trailing
space in the extracted source field; the strip inside the summary builder
removes it, so the summary differs from the claimed verbatim
`【<pure><bot> <attribute>|<source>】` format. -/
theorem c9_summary_format_counterexample :
    (check [] env9).1.ip_src = "AWS "
    ∧ (check [] env9).1.full_string = "【⚪⚪ 数据中心|AWS】"
    ∧ (check [] env9).1.full_string ≠
        "【" ++ (check [] env9).1.pure_emoji ++ (check [] env9).1.bot_emoji ++ " " ++
          (if (check [] env9).1.ip_attr ≠ "❓" then (check [] env9).1.ip_attr else "") ++ "|" ++
          (if (check [] env9).1.ip_src ≠ "❓" then (check [] env9).1.ip_src else "") ++ "】" := by
  decide

/-- C9 amended: severity banding and summary format.  The emoji banding
follows the fixed thresholds on the parsed percentage value and yields the
question mark exactly on unparsable input; and for every non-error probe
the summary equals `【<pure_emoji><bot_emoji> <info>】` where `<info>` is
the attribute-bar-source concatenation stripped of surrounding
whitespace, with the placeholder `未知` substituted when both attribute
and source are empty. -/
theorem c9_banding_and_summary :
    (∀ s v, pyFloat? (strReplace s "%" "") = some v →
      get_emoji s = (if pyLe v 10 then "⚪" else if pyLe v 30 then "🟢"
        else if pyLe v 50 then "🟡" else if pyLe v 70 then "🟠"
        else if pyLe v 90 then "🔴" else "⚫"))
    ∧ (∀ s, pyFloat? (strReplace s "%" "") = none → get_emoji s = "❓")
    ∧ (∀ (cache : Cache) (env : CheckEnv) (page : PageText),
        env.nav = Except.ok page →
        (∀ a, env.quickIp = some a → a ≠ "" → dlookup cache a = none) →
        (check cache env).1.full_string =
          "【" ++ (check cache env).1.pure_emoji ++ (check cache env).1.bot_emoji ++ " " ++
            (if (if (check cache env).1.ip_attr ≠ "❓" then (check cache env).1.ip_attr else "") = ""
                ∧ (if (check cache env).1.ip_src ≠ "❓" then (check cache env).1.ip_src else "") = ""
             then "未知"
             else pyStrip
               ((if (check cache env).1.ip_attr ≠ "❓" then (check cache env).1.ip_attr else "")
                 ++ "|" ++
                (if (check cache env).1.ip_src ≠ "❓" then (check cache env).1.ip_src else ""))) ++
            "】") := by
  refine ⟨?_, ?_, ?_⟩
  · intro s v hv
    unfold get_emoji
    rw [hv]
  · intro s hv
    unfold get_emoji
    rw [hv]
  · intro cache env page hnav hmiss
    rw [check_miss_ok cache env page hmiss hnav]
    dsimp only
    rw [buildCheckResult_full_string, buildCheckResult_ip_attr, buildCheckResult_ip_src]
    rw [checkInfo_eq (checkIpAttr page) (checkIpSrc page)
      (fun c cs h => checkIpAttr_head page h) (fun c cs h => checkIpSrc_head page h)]

/-- C9 witness: the banding at a concrete mid-band percentage and the
amended summary format on the sample probe environment. -/
theorem c9_banding_and_summary_witness :
    get_emoji "25%" = "🟢" ∧ (check [] env9).1.full_string = "【⚪⚪ 数据中心|AWS】" := by
  constructor
  · have h := c9_banding_and_summary.1 "25%" ((25 : Int), 0) (by decide)
    rw [h]
    decide
  · have h := c9_banding_and_summary.2.2 [] env9 page9 rfl (fun a _ _ => rfl)
    rw [h]
    decide

/-- C10: fast-mode probe is undefined.  The `IPChecker` class defines no
`check_fast` method, so with fast mode enabled a successfully switched
entry raises an attribute error that escapes `test_single_proxy` instead
of returning a result dictionary, and the two-attempt retry loop makes no
prober call at all in fast mode, while in browser mode it always makes at
least one. -/
theorem c10_fast_mode_undefined (a1 a2 : Except String EvalResult) :
    ipCheckerMethods.contains "check_fast" = false
    ∧ (test_single_proxy true true a1 a2).1 =
        Except.error "AttributeError: IPChecker object has no attribute check_fast"
    ∧ (test_single_proxy true true a1 a2).2 = 0
    ∧ 1 ≤ (test_single_proxy true false a1 a2).2 := by
  refine ⟨by decide, rfl, rfl, ?_⟩
  cases a1 with
  | ok r1 =>
    by_cases hs1 : r1.error = none ∧ r1.pure_score ≠ "❓"
    · simp [test_single_proxy, checkRetryLoop, hs1]
    · cases a2 with
      | ok r2 =>
        by_cases hs2 : r2.error = none ∧ r2.pure_score ≠ "❓" <;>
          simp [test_single_proxy, checkRetryLoop, hs1, hs2]
      | error e2 => simp [test_single_proxy, checkRetryLoop, hs1]
  | error e1 =>
    cases a2 with
    | ok r2 =>
      by_cases hs2 : r2.error = none ∧ r2.pure_score ≠ "❓" <;>
        simp [test_single_proxy, checkRetryLoop, hs2]
    | error e2 => simp [test_single_proxy, checkRetryLoop]
